import Mathlib

/-!
# Verification of the convoBlocker moderation backend

Shallow embedding of the core of `src/claude_version/backend`
(`server.py`, `agent.py`, `tools/pattern_detector.py`,
`tools/decision_maker.py`, `tools/user_history.py`) together with
proofs of the specified properties.

Conventions of the embedding:
* timestamps (`time.time()`) are explicit integer-second parameters;
* the external LLM capabilities (the LangChain/deepagents agent and the
  DSPy `DecisionMaker` module) are explicit function/outcome parameters;
* the textual JSON decoding performed by `json.loads` inside
  `_parse_decisions` is abstracted into an `AgentJson` value: `notList`
  stands for "no JSON array found / decode error / decoded value not a
  list", and field values of the decoded dicts are modelled as strings
  (the shape the system prompt mandates and that pydantic accepts);
* Python character predicates (`str.isalpha`, `str.isupper`, `\w`,
  whitespace) are modelled by their ASCII behaviour.
-/

namespace ConvoBlocker

/-! ## Decision cache (`server.py` lines 38-104)

`_decision_cache` is a dict from username to `(decision, timestamp)`;
we model it as a function into `Option`. -/

def Cache : Type := String → Option (String × Int)

def CACHE_TTL : Int := 300

/-- `_cache_get` (server.py 92-99): returns the cached decision when the
entry is younger than `CACHE_TTL`; an expired entry is deleted
(evict-on-read) and `none` is returned.  The second component is the
cache after the call (the deletion is the only mutation). -/
def cacheGet (c : Cache) (now : Int) (username : String) : Option String × Cache :=
  match c username with
  | none => (none, c)
  | some (d, ts) =>
      if now - ts < CACHE_TTL then (some d, c)
      else (none, fun v => if v = username then none else c v)

/-- `_cache_set` (server.py 102-104). -/
def cacheSet (c : Cache) (username d : String) (now : Int) : Cache :=
  fun v => if v = username then some (d, now) else c v

/-! ## Data model (`models.py`, `db.py`) -/

/-- `ChatMessage` (models.py). -/
structure Msg where
  username : String
  text : String
deriving Repr, DecidableEq

/-- `MessageDecision` (models.py). -/
structure MessageDecision where
  username : String
  decision : String
  reason : String
deriving Repr, DecidableEq

/-- A row of the `decisions` audit table (db.py `store_decision`);
`categories` is always `[]` on the server's call sites and is omitted. -/
structure LogEntry where
  username : String
  decision : String
  reason : String
  timestamp : Int
deriving Repr, DecidableEq

/-- The single `stats` row (db.py). -/
structure Stats where
  messages_analyzed : Int
  users_blocked : Int
  cache_hits : Int
deriving Repr, DecidableEq

/-- The mutable state touched by the `/analyze` and `/unblock` endpoints:
the in-process decision cache plus the durable `decisions` table and
`stats` row. -/
structure ServerState where
  cache : Cache
  log : List LogEntry
  stats : Stats

/-- The fields of `Settings` (config.py) that `analyze_messages` reads. -/
structure Settings where
  enabled : Bool
deriving Repr, DecidableEq

/-- The three admissible decision strings. -/
def validDecisions : List String := ["block", "allow", "watch"]

/-! ## Agent response parsing (`agent.py` 158-249)

The agent's raw response text is decoded by `_parse_decisions`: it slices
the outermost `[...]`, runs `json.loads`, and keeps the dict elements that
carry a `username` key.  We embed from the decoded value onwards:
`AgentJson.notList` covers "no bracket pair found", "JSONDecodeError" and
"decoded value is not a list". -/

/-- One element of the decoded JSON array; non-dict elements are dropped
by `_parse_decisions`.  Dict fields are modelled as string-valued. -/
inductive JElem where
  | dict (fields : List (String × String))
  | nonDict
deriving Repr, DecidableEq

/-- Outcome of extracting and `json.loads`-ing the agent response text. -/
inductive AgentJson where
  | jlist (elems : List JElem)
  | notList
deriving Repr, DecidableEq

/-- The per-message dicts `run_agent` returns to the server. -/
structure RawDecision where
  username : String
  decision : String
  reason : String
deriving Repr, DecidableEq

/-- `_parse_decisions` (agent.py 220-249), from the decoded JSON value on:
a decoded list keeps exactly its dict elements that have a `username`
key, defaulting `decision` to `allow` and `reason` to the empty string;
anything else falls back to one allow-decision per input message. -/
def parseDecisions (parsed : AgentJson) (messages : List Msg) : List RawDecision :=
  match parsed with
  | .jlist ds =>
      ds.filterMap fun e =>
        match e with
        | .dict fields =>
            match fields.lookup "username" with
            | some u =>
                some { username := u
                       decision := (fields.lookup "decision").getD "allow"
                       reason := (fields.lookup "reason").getD "" }
            | none => none
        | .nonDict => none
  | .notList =>
      messages.map fun m =>
        { username := m.username, decision := "allow",
          reason := "Parse error — defaulting to allow" }

/-- The agent invocation outcome: `.error e` models the agent call raising
an exception with message `e` (caught by `run_agent`), `.ok j` models a
response whose text decodes to `j`. -/
def AgentOutcome : Type := Except String AgentJson

/-- `run_agent` (agent.py 158-196): empty input short-circuits to `[]`;
an exception from the invocation is caught and turned into one
allow-decision per message (fail-open); otherwise the response is parsed.
The function is total: no exception escapes to the caller. -/
def runAgent (outcome : AgentOutcome) (messages : List Msg) : List RawDecision :=
  if messages.isEmpty then []
  else
    match outcome with
    | .ok parsed => parseDecisions parsed messages
    | .error e =>
        messages.map fun m =>
          { username := m.username, decision := "allow",
            reason := "Agent error: " ++ e }

/-! ## The `/analyze` endpoint (`server.py` 107-186) -/

/-- The cache-scan phase (server.py 120-133): walks the batch in order,
collecting a `Cached decision` for every fresh cache hit (Python
truthiness: an empty cached string counts as a miss) and the remaining
messages, in order, as the uncached list.  Returns
`(cached decisions, uncached messages, cache hits, cache after scan)` -
the scan mutates the cache only through `_cache_get`'s evict-on-read. -/
def splitCache (c : Cache) (now : Int) : List Msg → List MessageDecision × List Msg × Nat × Cache
  | [] => ([], [], 0, c)
  | m :: rest =>
      let r := cacheGet c now m.username
      match r.1 with
      | some d =>
          if d ≠ "" then
            let t := splitCache r.2 now rest
            ({ username := m.username, decision := d, reason := "Cached decision" } :: t.1,
             t.2.1, t.2.2.1 + 1, t.2.2.2)
          else
            let t := splitCache r.2 now rest
            (t.1, m :: t.2.1, t.2.2.1, t.2.2.2)
      | none =>
          let t := splitCache r.2 now rest
          (t.1, m :: t.2.1, t.2.2.1, t.2.2.2)

/-- The decision-processing loop (server.py 160-179): caches every raw
decision, builds the `MessageDecision` list, appends block/watch entries
to the `decisions` table and counts blocks.  Returns
`(new decisions, cache, appended log entries, blocks)`. -/
def processRaw (now : Int) (c : Cache) : List RawDecision → List MessageDecision × Cache × List LogEntry × Int
  | [] => ([], c, [], 0)
  | d :: rest =>
      let c1 := cacheSet c d.username d.decision now
      let t := processRaw now c1 rest
      let entries :=
        if d.decision = "block" ∨ d.decision = "watch" then
          [({ username := d.username, decision := d.decision,
              reason := d.reason, timestamp := now } : LogEntry)]
        else []
      let bInc : Int := if d.decision = "block" then 1 else 0
      ({ username := d.username, decision := d.decision, reason := d.reason } :: t.1,
       t.2.1, entries ++ t.2.2.1, bInc + t.2.2.2)

/-- The raw decisions for the uncached messages (server.py 144-158):
`_agent is None` yields the `Agent not configured` fallback, otherwise
the agent runs.  `run_agent` already catches every agent exception
(agent.py 190-196), so the server-level `except` branch (server.py
148-153) is unreachable in this model and the fail-open reason is the
one built by `run_agent`. -/
def freshRaw (agent : Option AgentOutcome) (uncached : List Msg) : List RawDecision :=
  match agent with
  | some outcome => runAgent outcome uncached
  | none =>
      uncached.map fun m =>
        { username := m.username, decision := "allow",
          reason := "Agent not configured" }

/-- `analyze_messages` (server.py 107-186) as a pure state transformer.
`settings = none` models `_settings is None`.  Returns the decision list
of the `AnalyzeResponse` together with the updated server state. -/
def analyze (settings : Option Settings) (agent : Option AgentOutcome)
    (now : Int) (st : ServerState) (msgs : List Msg) :
    List MessageDecision × ServerState :=
  let disabled :=
    (msgs.map fun m =>
      ({ username := m.username, decision := "allow",
         reason := "Moderation disabled" } : MessageDecision), st)
  match settings with
  | none => disabled
  | some s =>
      if s.enabled = false then disabled
      else
        let sc := splitCache st.cache now msgs
        let cachedDecisions := sc.1
        let uncached := sc.2.1
        let hits := sc.2.2.1
        let c1 := sc.2.2.2
        let stats1 :=
          if hits > 0 then
            { st.stats with cache_hits := st.stats.cache_hits + (hits : Int) }
          else st.stats
        if uncached.isEmpty then
          (cachedDecisions,
           { cache := c1, log := st.log,
             stats := { stats1 with
               messages_analyzed := stats1.messages_analyzed + (msgs.length : Int) } })
        else
          let raws := freshRaw agent uncached
          let pr := processRaw now c1 raws
          (cachedDecisions ++ pr.1,
           { cache := pr.2.1,
             log := st.log ++ pr.2.2.1,
             stats := { messages_analyzed := stats1.messages_analyzed + (msgs.length : Int),
                        users_blocked := stats1.users_blocked + pr.2.2.2,
                        cache_hits := stats1.cache_hits } })

/-- `unblock_user` (server.py 247-258): deletes the cache entry if
present, then force-sets it to `allow`; the `decisions` table and the
stats row are not touched. -/
def unblock (now : Int) (st : ServerState) (username : String) : ServerState :=
  let c1 : Cache := fun v => if v = username then none else st.cache v
  { st with cache := cacheSet c1 username "allow" now }

/-- Every decision string stored in the cache is one of the three valid ones. -/
def CacheValid (c : Cache) : Prop :=
  ∀ u d t, c u = some (d, t) → d ∈ validDecisions

/-! ## Pattern detector (`tools/pattern_detector.py`)

The regexes are hand-compiled into scanning functions over the character
list of the message.  Python character predicates (`str.isalpha`,
`str.isupper`, `\w`, `\s`) are modelled by their ASCII behaviour. -/

/-- Python whitespace (`str.strip`, regex `\s`) restricted to ASCII:
space, tab, newline, carriage return, vertical tab, form feed. -/
def pyIsSpace (c : Char) : Bool :=
  c == ' ' || c == '\t' || c == '\n' || c == '\r' ||
    c == Char.ofNat 11 || c == Char.ofNat 12

/-- `str.strip()`: drop whitespace from both ends. -/
def pyStrip (s : List Char) : List Char :=
  ((s.dropWhile pyIsSpace).reverse.dropWhile pyIsSpace).reverse

/-- Regex `\w` (ASCII): letters, digits, underscore. -/
def isWordChar (c : Char) : Bool :=
  c.isAlphanum || c == '_'

/-- The character class `[\w-]` of the bare-domain alternative. -/
def isWordDash (c : Char) : Bool :=
  isWordChar c || c == '-'

/-- Case-insensitive literal match (re.IGNORECASE): consumes `lit` from
the front of `s` and returns the rest, or `none`. -/
def matchLit : List Char → List Char → Option (List Char)
  | [], s => some s
  | _ :: _, [] => none
  | l :: ls, c :: cs => if c.toLower = l then matchLit ls cs else none

/-- Alternative 1 of the URL regex, `https?://\S+`: the optional `s` is
deterministic because an unconsumed `s` can never start `://`. -/
def matchScheme (s : List Char) : Option (List Char) :=
  match matchLit ['h', 't', 't', 'p'] s with
  | none => none
  | some r1 =>
      let r2 := match r1 with
                | c :: cs => if c.toLower = 's' then cs else r1
                | [] => r1
      match matchLit [':', '/', '/'] r2 with
      | none => none
      | some r3 =>
          let sp := r3.span (fun c => !(pyIsSpace c))
          if sp.1.isEmpty then none else some sp.2

/-- Alternative 2 of the URL regex, `www\.\S+`. -/
def matchWww (s : List Char) : Option (List Char) :=
  match matchLit ['w', 'w', 'w', '.'] s with
  | none => none
  | some r1 =>
      let sp := r1.span (fun c => !(pyIsSpace c))
      if sp.1.isEmpty then none else some sp.2

/-- The TLD allow-list `(com|net|org|io|gg|tv|me|co)`, in regex order. -/
def tldList : List (List Char) :=
  [['c', 'o', 'm'], ['n', 'e', 't'], ['o', 'r', 'g'], ['i', 'o'],
   ['g', 'g'], ['t', 'v'], ['m', 'e'], ['c', 'o']]

/-- Try each TLD in order, requiring the trailing `\b`: the character
after the TLD (which follows a word character) must be absent or
non-word. -/
def matchTld : List (List Char) → List Char → Option (List Char)
  | [], _ => none
  | t :: ts, s =>
      match matchLit t s with
      | some r =>
          if (match r with | [] => true | c :: _ => !(isWordChar c)) then some r
          else matchTld ts s
      | none => matchTld ts s

/-- Alternative 3 of the URL regex, `[\w-]+\.(com|...|co)\b`: the greedy
`[\w-]+` is deterministic because the class excludes `.`. -/
def matchDomain (s : List Char) : Option (List Char) :=
  let sp := s.span isWordDash
  if sp.1.isEmpty then none
  else
    match sp.2 with
    | '.' :: rest => matchTld tldList rest
    | _ => none

/-- One attempt of the URL regex at the current position, alternatives
in regex order. -/
def tryMatchUrl (s : List Char) : Option (List Char) :=
  match matchScheme s with
  | some r => some r
  | none =>
      match matchWww s with
      | some r => some r
      | none => matchDomain s

/-- `re.findall` scan: count non-overlapping leftmost matches, advancing
one character on failure.  Fuel is the list length (every match consumes
at least one character). -/
def urlCountAux : Nat → List Char → Nat
  | 0, _ => 0
  | _ + 1, [] => 0
  | fuel + 1, c :: cs =>
      match tryMatchUrl (c :: cs) with
      | some rest => 1 + urlCountAux fuel rest
      | none => urlCountAux fuel cs

/-- `len(re.findall(url_pattern, message))`. -/
def urlCount (s : List Char) : Nat :=
  urlCountAux s.length s

/-- The emoji code-point ranges of `emoji_pattern`. -/
def isEmojiChar (c : Char) : Bool :=
  let n := c.toNat
  (0x1F600 ≤ n && n ≤ 0x1F64F) || (0x1F300 ≤ n && n ≤ 0x1F5FF) ||
  (0x1F680 ≤ n && n ≤ 0x1F6FF) || (0x1F1E0 ≤ n && n ≤ 0x1F1FF) ||
  (0x2702 ≤ n && n ≤ 0x27B0) || (0xFE00 ≤ n && n ≤ 0xFE0F) ||
  (0x1F900 ≤ n && n ≤ 0x1F9FF) || (0x1FA00 ≤ n && n ≤ 0x1FA6F) ||
  (0x1FA70 ≤ n && n ≤ 0x1FAFF) || (0x2600 ≤ n && n ≤ 0x26FF)

/-- `re.search(r'(.)\1{2,}', message)`: some run of three or more equal
characters; the group `.` cannot be a newline. -/
def hasRun3 : List Char → Bool
  | c1 :: c2 :: c3 :: rest =>
      (c1 == c2 && c2 == c3 && c1 != '\n') || hasRun3 (c2 :: c3 :: rest)
  | _ => false

/-- `len(re.findall(r'(.)\1{2,}', message))`: the greedy match consumes a
whole maximal run, so this counts maximal runs of length ≥ 3. -/
def countRunsAux : Nat → List Char → Nat
  | 0, _ => 0
  | _ + 1, [] => 0
  | fuel + 1, c :: cs =>
      if (match cs with
          | d :: e :: _ => c == d && d == e && c != '\n'
          | _ => false) then
        1 + countRunsAux fuel (cs.dropWhile (· == c))
      else countRunsAux fuel cs

def countRuns (s : List Char) : Nat :=
  countRunsAux s.length s

/-- `caps_ratio` (pattern_detector.py 30-34): uppercase alphabetic over
total alphabetic characters, 0.0 when there are none. -/
def capsRatio (m : List Char) : ℚ :=
  let alpha := m.filter Char.isAlpha
  if alpha.isEmpty then 0
  else ((alpha.filter Char.isUpper).length : ℚ) / (alpha.length : ℚ)

/-- `excessive_caps` (line 35): ratio above 0.7 with at least 5 letters. -/
def excessiveCaps (m : List Char) : Bool :=
  decide (capsRatio m > 7 / 10) && decide ((m.filter Char.isAlpha).length ≥ 5)

/-- `emoji_count` (line 55). -/
def emojiCount (m : List Char) : Nat :=
  (m.filter isEmojiChar).length

/-- `emoji_density` (lines 56-57): count over `max(len(message), 1)`. -/
def emojiDensity (m : List Char) : ℚ :=
  (emojiCount m : ℚ) / ((max m.length 1 : Nat) : ℚ)

/-- `excessive_emojis` (line 58): density above 0.3 and at least 3 emojis. -/
def excessiveEmojis (m : List Char) : Bool :=
  decide (emojiDensity m > 3 / 10) && decide (emojiCount m ≥ 3)

/-- `len(message.strip())` (lines 61, 77). -/
def strippedLen (m : List Char) : Nat :=
  (pyStrip m).length

/-- `too_short` (line 62): `0 < len(stripped) < 3`. -/
def tooShort (m : List Char) : Bool :=
  decide (strippedLen m < 3) && decide (strippedLen m > 0)

/-- `too_long` (line 63): `len(stripped) > 300`. -/
def tooLong (m : List Char) : Bool :=
  decide (strippedLen m > 300)

/-- The JSON payload of `detect_patterns`.  The ratio fields keep the
exact rational value; the Python code additionally rounds them to two
decimals for display, which does not affect any boolean flag. -/
structure PatternFlags where
  has_urls : Bool
  url_count : Nat
  excessive_caps : Bool
  caps_ratio : ℚ
  repeated_chars : Bool
  repeated_sequences_count : Nat
  excessive_emojis : Bool
  emoji_count : Nat
  emoji_density : ℚ
  too_short : Bool
  too_long : Bool
  message_length : Nat
deriving Repr, DecidableEq

/-- `detect_patterns` (tools/pattern_detector.py 22-79). -/
def detectPatterns (message : String) : PatternFlags :=
  let m := message.toList
  { has_urls := decide (urlCount m > 0)
    url_count := urlCount m
    excessive_caps := excessiveCaps m
    caps_ratio := capsRatio m
    repeated_chars := hasRun3 m
    repeated_sequences_count := countRuns m
    excessive_emojis := excessiveEmojis m
    emoji_count := emojiCount m
    emoji_density := emojiDensity m
    too_short := tooShort m
    too_long := tooLong m
    message_length := strippedLen m }

/-! ## Decision maker (`tools/decision_maker.py`)

The DSPy `DecisionMaker` chain-of-thought module is an external LLM
capability; it is passed in as the function `maker` mapping the six
string inputs to the free-text `decision`/`reasoning` pair. -/

/-- The output fields of the DSPy `BlockDecision` signature. -/
structure DspyDecisionResult where
  decision : String
  reasoning : String
deriving Repr, DecidableEq

/-- The JSON payload returned by `make_decision`. -/
structure DecisionOutput where
  username : String
  decision : String
  reasoning : String
deriving Repr, DecidableEq

/-- `str.lower()` restricted to ASCII: lower-case every character. -/
def pyLower (s : List Char) : List Char :=
  s.map Char.toLower

/-- The boundary normalization of `make_decision` (decision_maker.py
51-55): strip, lower-case, and map anything outside the closed
enumeration to `watch`. -/
def normalizeDecision (d : String) : String :=
  if String.mk (pyLower (pyStrip d.toList)) = "block"
      ∨ String.mk (pyLower (pyStrip d.toList)) = "allow"
      ∨ String.mk (pyLower (pyStrip d.toList)) = "watch"
  then String.mk (pyLower (pyStrip d.toList))
  else "watch"

/-- `make_decision` (decision_maker.py 37-62). -/
def makeDecision
    (maker : String → String → String → String → String → String → DspyDecisionResult)
    (username message_analysis sentiment pattern_flags user_history : String)
    (custom_instructions : String := "") : DecisionOutput :=
  let ci := if custom_instructions = "" then "No custom instructions provided."
            else custom_instructions
  let result := maker username message_analysis sentiment pattern_flags user_history ci
  { username := username
    decision := normalizeDecision result.decision
    reasoning := result.reasoning }

/-! ## User history (`tools/user_history.py`)

The SQLite connection is a fault-injectable oracle: `connectError`
models `sqlite3.connect` raising (line 49, *outside* the `try` block),
`opError` models a `sqlite3.Error` raised anywhere inside the `try`
block (table setup, insert or one of the aggregate queries). -/

/-- A row of the `user_messages` table. -/
structure MessageRow where
  username : String
  message : String
  timestamp : Int
  flagged : Bool
deriving Repr, DecidableEq

/-- The SQLite environment `get_user_history` runs against. -/
structure HistoryDB where
  connectError : Option String
  opError : Option String
  rows : List MessageRow
  now : Int

/-- The JSON payload of `get_user_history`. -/
structure HistorySummary where
  username : String
  total_messages : Nat
  recent_messages : Nat
  flag_count : Nat
  first_seen : Int
  error : Option String
deriving Repr, DecidableEq

/-- `get_user_history` (tools/user_history.py 49-110).  `Except.error`
models an exception propagating to the caller; a caught `sqlite3.Error`
yields the zeroed fallback summary.  The Python `row[0] if row and
row[0] else now` guard makes a minimum timestamp of exactly 0 read as
`now`. -/
def getUserHistory (db : HistoryDB) (username message : String) :
    Except String HistorySummary :=
  match db.connectError with
  | some e => Except.error e
  | none =>
      match db.opError with
      | some e =>
          Except.ok { username := username, total_messages := 0,
                      recent_messages := 0, flag_count := 0,
                      first_seen := db.now, error := some e }
      | none =>
          let rows1 := db.rows ++ [{ username := username, message := message,
                                     timestamp := db.now, flagged := false }]
          let mine := rows1.filter (fun r => r.username == username)
          let total := mine.length
          let recent := (mine.filter (fun r => r.timestamp > db.now - 600)).length
          let flags := (mine.filter (fun r => r.flagged)).length
          let minTs := (mine.map (fun r => r.timestamp)).foldr min db.now
          let first_seen := if mine.isEmpty || minTs == 0 then db.now else minTs
          Except.ok { username := username, total_messages := total,
                      recent_messages := recent, flag_count := flags,
                      first_seen := first_seen,
                      error := none }

end ConvoBlocker

namespace ConvoBlocker

/-! ## Helper lemmas about the batch pipeline -/

lemma cacheGet_hit_mem {c : Cache} {now : Int} {u : String} {d : String}
    (hc : CacheValid c) (h : (cacheGet c now u).1 = some d) : d ∈ validDecisions := by
  unfold cacheGet at h
  cases hcu : c u with
  | none => rw [hcu] at h; simp at h
  | some p =>
      rw [hcu] at h
      by_cases ht : now - p.2 < CACHE_TTL
      · simp [ht] at h
        exact h ▸ hc u p.1 p.2 (by rw [hcu])
      · simp [ht] at h

lemma cacheGet_snd_valid {c : Cache} {now : Int} {u : String}
    (hc : CacheValid c) : CacheValid (cacheGet c now u).2 := by
  unfold cacheGet
  cases hcu : c u with
  | none => simpa using hc
  | some p =>
      by_cases ht : now - p.2 < CACHE_TTL
      · simpa [ht] using hc
      · simp only [ht, if_false]
        intro v d t hv
        by_cases hvu : v = u
        · simp [hvu] at hv
        · simp [hvu] at hv
          exact hc v d t hv

/-- The cache scan partitions the batch: hits plus misses count the whole batch. -/
lemma splitCache_length (c : Cache) (now : Int) (msgs : List Msg) :
    (splitCache c now msgs).1.length + (splitCache c now msgs).2.1.length = msgs.length := by
  induction msgs generalizing c with
  | nil => simp [splitCache]
  | cons m rest ih =>
      cases hg : (cacheGet c now m.username).1 with
      | none =>
          simp only [splitCache, hg, List.length_cons]
          have := ih (cacheGet c now m.username).2
          omega
      | some d =>
          by_cases hd : d = ""
          · simp only [splitCache, hg, hd, ne_eq, not_true_eq_false, if_false,
              List.length_cons]
            have := ih (cacheGet c now m.username).2
            omega
          · simp only [splitCache, hg, ne_eq, hd, not_false_eq_true, if_true,
              List.length_cons]
            have := ih (cacheGet c now m.username).2
            omega

/-- Every cache-hit decision in the scan carries a valid decision string
and the reason `Cached decision`. -/
lemma splitCache_hits_valid {c : Cache} {now : Int} {msgs : List Msg}
    (hc : CacheValid c) :
    ∀ md ∈ (splitCache c now msgs).1,
      md.decision ∈ validDecisions ∧ md.reason = "Cached decision" := by
  induction msgs generalizing c with
  | nil => simp [splitCache]
  | cons m rest ih =>
      cases hg : (cacheGet c now m.username).1 with
      | none =>
          simp only [splitCache, hg]
          exact ih (cacheGet_snd_valid hc)
      | some d =>
          by_cases hd : d = ""
          · simp only [splitCache, hg, hd, ne_eq, not_true_eq_false, if_false]
            exact ih (cacheGet_snd_valid hc)
          · simp only [splitCache, hg, ne_eq, hd, not_false_eq_true, if_true]
            intro md hmd
            rcases List.mem_cons.mp hmd with h1 | h1
            · subst h1
              exact ⟨cacheGet_hit_mem hc hg, rfl⟩
            · exact ih (cacheGet_snd_valid hc) md h1

/-- When the scan produces no cache hit, the uncached list is the batch itself. -/
lemma splitCache_no_hits {c : Cache} {now : Int} {msgs : List Msg}
    (h : (splitCache c now msgs).1 = []) : (splitCache c now msgs).2.1 = msgs := by
  induction msgs generalizing c with
  | nil => simp [splitCache]
  | cons m rest ih =>
      cases hg : (cacheGet c now m.username).1 with
      | none =>
          simp only [splitCache, hg] at h ⊢
          exact congrArg (m :: ·) (ih h)
      | some d =>
          by_cases hd : d = ""
          · simp only [splitCache, hg, hd, ne_eq, not_true_eq_false, if_false] at h ⊢
            exact congrArg (m :: ·) (ih h)
          · simp only [splitCache, hg, ne_eq, hd, not_false_eq_true, if_true] at h
            exact absurd h (by simp)

/-- When every message is a cache hit, the hit decisions carry the batch
usernames in order. -/
lemma splitCache_all_hits {c : Cache} {now : Int} {msgs : List Msg}
    (h : (splitCache c now msgs).2.1 = []) :
    (splitCache c now msgs).1.map MessageDecision.username = msgs.map Msg.username := by
  induction msgs generalizing c with
  | nil => simp [splitCache]
  | cons m rest ih =>
      cases hg : (cacheGet c now m.username).1 with
      | none =>
          simp only [splitCache, hg] at h
          exact absurd h (by simp)
      | some d =>
          by_cases hd : d = ""
          · simp only [splitCache, hg, hd, ne_eq, not_true_eq_false, if_false] at h
            exact absurd h (by simp)
          · simp only [splitCache, hg, ne_eq, hd, not_false_eq_true, if_true] at h ⊢
            simp only [List.map_cons]
            exact congrArg (m.username :: ·) (ih h)

/-- Every cache-hit decision of the scan carries the reason `Cached decision`. -/
lemma splitCache_hits_reason {c : Cache} {now : Int} {msgs : List Msg} :
    ∀ md ∈ (splitCache c now msgs).1, md.reason = "Cached decision" := by
  induction msgs generalizing c with
  | nil => simp [splitCache]
  | cons m rest ih =>
      cases hg : (cacheGet c now m.username).1 with
      | none =>
          simp only [splitCache, hg]
          exact ih
      | some d =>
          by_cases hd : d = ""
          · simp only [splitCache, hg, hd, ne_eq, not_true_eq_false, if_false]
            exact ih
          · simp only [splitCache, hg, ne_eq, hd, not_false_eq_true, if_true]
            intro md hmd
            rcases List.mem_cons.mp hmd with h1 | h1
            · subst h1; rfl
            · exact ih md h1

/-- The processing loop copies each raw decision verbatim into the
returned `MessageDecision` list. -/
lemma processRaw_fst (now : Int) (c : Cache) (raws : List RawDecision) :
    (processRaw now c raws).1 =
      raws.map fun r =>
        ({ username := r.username, decision := r.decision, reason := r.reason } :
          MessageDecision) := by
  induction raws generalizing c with
  | nil => simp [processRaw]
  | cons r rest ih => simp [processRaw, ih]

/-- With moderation enabled, the decision list `analyze` returns is the
cache-hit decisions (in input order) followed by the fresh decisions, in
the order the agent produced them. -/
lemma analyze_fst (s : Settings) (agent : Option AgentOutcome) (now : Int)
    (st : ServerState) (msgs : List Msg) (hs : s.enabled = true) :
    (analyze (some s) agent now st msgs).1 =
      (splitCache st.cache now msgs).1 ++
        (freshRaw agent (splitCache st.cache now msgs).2.1).map
          (fun r =>
            ({ username := r.username, decision := r.decision, reason := r.reason } :
              MessageDecision)) := by
  by_cases he : (splitCache st.cache now msgs).2.1.isEmpty
  · have h0 : (splitCache st.cache now msgs).2.1 = [] := by
      simpa [List.isEmpty_iff] using he
    cases agent with
    | none => simp [analyze, hs, he, h0, freshRaw]
    | some outcome => simp [analyze, hs, he, h0, freshRaw, runAgent]
  · simp [analyze, hs, he, processRaw_fst]

/-! ## Theorems: C3 (cache TTL semantics) -/

/-- C3: after `_cache_set(u, d)` at time `t0`, a `_cache_get(u)` strictly
less than `CACHE_TTL = 300` seconds later returns `d`; a get 300 seconds
or more later returns `none` and removes the entry (evict-on-read). -/
theorem cache_ttl_semantics (c : Cache) (u d : String) (t0 t1 : Int) :
    (t1 - t0 < 300 → (cacheGet (cacheSet c u d t0) t1 u).1 = some d) ∧
    (300 ≤ t1 - t0 →
      (cacheGet (cacheSet c u d t0) t1 u).1 = none ∧
      (cacheGet (cacheSet c u d t0) t1 u).2 u = none) := by
  have hu : cacheSet c u d t0 u = some (d, t0) := by simp [cacheSet]
  constructor
  · intro h
    simp [cacheGet, hu, CACHE_TTL, h]
  · intro h
    have hn : ¬ (t1 - t0 < 300) := by omega
    simp [cacheGet, hu, CACHE_TTL, hn]

/-- Witness for `cache_ttl_semantics` at concrete times 0 (set), 10
(fresh get) and 400 (expired get) for user `u1`. -/
theorem cache_ttl_semantics_witness :
    (cacheGet (cacheSet (fun _ => none) "u1" "block" 0) 10 "u1").1 = some "block" ∧
    (cacheGet (cacheSet (fun _ => none) "u1" "block" 0) 400 "u1").1 = none ∧
    (cacheGet (cacheSet (fun _ => none) "u1" "block" 0) 400 "u1").2 "u1" = none := by
  refine ⟨(cache_ttl_semantics (fun _ => none) "u1" "block" 0 10).1 (by decide),
    (cache_ttl_semantics (fun _ => none) "u1" "block" 0 400).2 (by decide)⟩

/-! ## Theorems: C5 (moderation disabled is a pure short-circuit) -/

/-- C5: when the moderation-enabled setting is false, `analyze` returns
`allow` with reason `Moderation disabled` for every input message, and
the server state (cache, decisions table, stats) is returned completely
unchanged — no cache write, no audit-log append, no stats update.  (The
endpoint never writes the message-history store on any path, so the
no-history-store part of the claim holds on this path as well.) -/
theorem analyze_disabled (s : Settings) (agent : Option AgentOutcome)
    (now : Int) (st : ServerState) (msgs : List Msg) (hs : s.enabled = false) :
    analyze (some s) agent now st msgs =
      (msgs.map fun m =>
        ({ username := m.username, decision := "allow",
           reason := "Moderation disabled" } : MessageDecision), st) := by
  simp [analyze, hs]

/-- Witness for `analyze_disabled` on a two-message batch with a warm
cache and a configured agent: nothing is consulted, nothing changes. -/
theorem analyze_disabled_witness :
    analyze (some { enabled := false })
        (some (Except.ok (AgentJson.jlist [JElem.dict [("username", "u1"), ("decision", "block")]])))
        7
        { cache := fun v => if v = "u2" then some ("watch", 0) else none,
          log := [], stats := ⟨3, 1, 2⟩ }
        [{ username := "u1", text := "spam spam" }, { username := "u2", text := "hello" }] =
      ([{ username := "u1", decision := "allow", reason := "Moderation disabled" },
        { username := "u2", decision := "allow", reason := "Moderation disabled" }],
       { cache := fun v => if v = "u2" then some ("watch", 0) else none,
         log := [], stats := ⟨3, 1, 2⟩ }) := by
  exact analyze_disabled _ _ _ _ _ rfl

/-! ## Theorems: C6 (unblock force-sets the cache to allow) -/

/-- C6: `unblock` leaves the decisions (audit log) table unmodified and
force-sets the cache entry to `allow`, so that any `analyze` of that
user strictly within the cache TTL — with any agent, i.e. regardless of
fresh signals — returns `allow` with reason `Cached decision`. -/
theorem unblock_forces_allow (st : ServerState) (u txt : String) (t0 t1 : Int)
    (s : Settings) (agent : Option AgentOutcome)
    (hs : s.enabled = true) (ht : t1 - t0 < 300) :
    (unblock t0 st u).log = st.log ∧
    (unblock t0 st u).cache u = some ("allow", t0) ∧
    (analyze (some s) agent t1 (unblock t0 st u) [{ username := u, text := txt }]).1 =
      [{ username := u, decision := "allow", reason := "Cached decision" }] := by
  have hcache : (unblock t0 st u).cache u = some ("allow", t0) := by
    simp [unblock, cacheSet]
  refine ⟨rfl, hcache, ?_⟩
  have hget : (cacheGet (unblock t0 st u).cache t1 u).1 = some "allow" := by
    simp [cacheGet, hcache, CACHE_TTL, ht]
  rw [analyze_fst _ _ _ _ _ hs]
  simp [splitCache, hget, freshRaw, runAgent]
  cases agent with
  | none => simp [freshRaw]
  | some outcome => simp [freshRaw, runAgent]

/-- Witness for `unblock_forces_allow`: a user cached as `block` and
present in the audit log is unblocked at time 50; re-evaluation at time
100 with an agent that would say `block` still returns `allow`. -/
theorem unblock_forces_allow_witness :
    (unblock 50
        { cache := fun v => if v = "spammer" then some ("block", 0) else none,
          log := [{ username := "spammer", decision := "block", reason := "spam", timestamp := 0 }],
          stats := ⟨5, 1, 0⟩ } "spammer").log =
      [{ username := "spammer", decision := "block", reason := "spam", timestamp := 0 }] ∧
    (unblock 50
        { cache := fun v => if v = "spammer" then some ("block", 0) else none,
          log := [{ username := "spammer", decision := "block", reason := "spam", timestamp := 0 }],
          stats := ⟨5, 1, 0⟩ } "spammer").cache "spammer" = some ("allow", 50) ∧
    (analyze (some { enabled := true })
        (some (Except.ok (AgentJson.jlist
          [JElem.dict [("username", "spammer"), ("decision", "block"), ("reason", "spam again")]])))
        100
        (unblock 50
          { cache := fun v => if v = "spammer" then some ("block", 0) else none,
            log := [{ username := "spammer", decision := "block", reason := "spam", timestamp := 0 }],
            stats := ⟨5, 1, 0⟩ } "spammer")
        [{ username := "spammer", text := "buy my stuff" }]).1 =
      [{ username := "spammer", decision := "allow", reason := "Cached decision" }] :=
  unblock_forces_allow _ "spammer" "buy my stuff" 50 100 _ _ rfl (by decide)

/-! ## Theorems: C2 (fail-open when the agent always errors) -/

/-- C2: if the agent capability raises on its invocation, `analyze` still
returns exactly one decision per input message; every returned decision
is one of `block`/`allow`/`watch` (fresh ones are `allow` via the
fail-open handler, cache hits replay earlier valid decisions), and the
embedding is a total function — the exception is consumed by
`run_agent`'s handler and never propagates. -/
theorem analyze_fail_open (s : Settings) (e : String) (now : Int)
    (st : ServerState) (msgs : List Msg)
    (hs : s.enabled = true) (hc : CacheValid st.cache) :
    (analyze (some s) (some (Except.error e)) now st msgs).1.length = msgs.length ∧
    (∀ d ∈ (analyze (some s) (some (Except.error e)) now st msgs).1,
      d.decision ∈ validDecisions) ∧
    (∀ d ∈ (freshRaw (some (Except.error e)) (splitCache st.cache now msgs).2.1),
      d.decision = "allow") := by
  have hlen := splitCache_length st.cache now msgs
  have hfresh : ∀ d ∈ (freshRaw (some (Except.error e)) (splitCache st.cache now msgs).2.1),
      d.decision = "allow" := by
    intro d hd
    unfold freshRaw runAgent at hd
    by_cases he : (splitCache st.cache now msgs).2.1.isEmpty
    · simp [he] at hd
    · simp only [he, if_false] at hd
      obtain ⟨m, _, rfl⟩ := List.mem_map.mp hd
      rfl
  have hflen : (freshRaw (some (Except.error e)) (splitCache st.cache now msgs).2.1).length =
      (splitCache st.cache now msgs).2.1.length := by
    unfold freshRaw runAgent
    by_cases he : (splitCache st.cache now msgs).2.1.isEmpty
    · have h0 : (splitCache st.cache now msgs).2.1 = [] := by
        simpa [List.isEmpty_iff] using he
      simp [he, h0]
    · simp [he]
  refine ⟨?_, ?_, hfresh⟩
  · rw [analyze_fst _ _ _ _ _ hs]
    simp [hflen]
    omega
  · rw [analyze_fst _ _ _ _ _ hs]
    intro d hd
    rcases List.mem_append.mp hd with h1 | h1
    · exact (splitCache_hits_valid hc d h1).1
    · obtain ⟨r, hr, rfl⟩ := List.mem_map.mp h1
      have := hfresh r hr
      simp [this, validDecisions]

/-- Witness for `analyze_fail_open`: a batch with one cache hit (`u2`,
cached `watch`) and one miss (`u1`) against an agent that raises; the
result is two decisions, `watch` for `u2` (hit) and `allow` for `u1`. -/
theorem analyze_fail_open_witness :
    (analyze (some { enabled := true }) (some (Except.error "boom")) 10
        { cache := fun v => if v = "u2" then some ("watch", 0) else none,
          log := [], stats := ⟨0, 0, 0⟩ }
        [{ username := "u1", text := "a" }, { username := "u2", text := "b" }]).1.length = 2 ∧
    (∀ d ∈ (analyze (some { enabled := true }) (some (Except.error "boom")) 10
        { cache := fun v => if v = "u2" then some ("watch", 0) else none,
          log := [], stats := ⟨0, 0, 0⟩ }
        [{ username := "u1", text := "a" }, { username := "u2", text := "b" }]).1,
      d.decision ∈ validDecisions) := by
  have h := analyze_fail_open { enabled := true } "boom" 10
    { cache := fun v => if v = "u2" then some ("watch", 0) else none,
      log := [], stats := ⟨0, 0, 0⟩ }
    [{ username := "u1", text := "a" }, { username := "u2", text := "b" }]
    rfl
    (by
      intro u d t hu
      by_cases h2 : u = "u2" <;> simp [h2] at hu
      simp [hu.1, validDecisions])
  exact ⟨h.1, h.2.1⟩

/-! ## Theorems: C1 (batch order) -/

/-- C1, counterexample: with a batch `[u1, u2]` where `u1` misses the
cache and `u2` hits it (a fresh `watch` entry), and an agent answering a
single well-formed decision for `u1`, the server returns the cached
decision for `u2` *first* (`cached_decisions + new_decisions`,
server.py 186), so `output[0].username ≠ input[0].username`: the claimed
order preservation fails for mixed cached/fresh batches. -/
theorem analyze_order_counterexample :
    ((analyze (some { enabled := true })
        (some (Except.ok (AgentJson.jlist
          [JElem.dict [("username", "u1"), ("decision", "allow"), ("reason", "ok")]])))
        10
        { cache := fun v => if v = "u2" then some ("watch", 0) else none,
          log := [], stats := ⟨0, 0, 0⟩ }
        [{ username := "u1", text := "a" }, { username := "u2", text := "b" }]).1.map
        MessageDecision.username = ["u2", "u1"]) ∧
    ([({ username := "u1", text := "a" } : Msg), { username := "u2", text := "b" }].map
        Msg.username = ["u1", "u2"]) ∧
    ((analyze (some { enabled := true })
        (some (Except.ok (AgentJson.jlist
          [JElem.dict [("username", "u1"), ("decision", "allow"), ("reason", "ok")]])))
        10
        { cache := fun v => if v = "u2" then some ("watch", 0) else none,
          log := [], stats := ⟨0, 0, 0⟩ }
        [{ username := "u1", text := "a" }, { username := "u2", text := "b" }]).1.map
        MessageDecision.username ≠
      [({ username := "u1", text := "a" } : Msg), { username := "u2", text := "b" }].map
        Msg.username) := by
  refine ⟨by decide, by decide, by decide⟩

/-- C1, amended: the returned list is the cache-hit decisions in input
order followed by the fresh decisions in agent order
(`analyze_fst`); per-index username preservation therefore holds for
homogeneous batches: (a) when every message hits the cache, and (b) when
no message hits the cache and the agent's parsed output carries exactly
the input usernames in order. -/
theorem analyze_order_amended (s : Settings) (agent : Option AgentOutcome)
    (now : Int) (st : ServerState) (msgs : List Msg) (hs : s.enabled = true) :
    ((splitCache st.cache now msgs).2.1 = [] →
      (analyze (some s) agent now st msgs).1.map MessageDecision.username =
        msgs.map Msg.username) ∧
    ((splitCache st.cache now msgs).1 = [] →
      (freshRaw agent msgs).map RawDecision.username = msgs.map Msg.username →
      (analyze (some s) agent now st msgs).1.map MessageDecision.username =
        msgs.map Msg.username ∧
      (analyze (some s) agent now st msgs).1.length = msgs.length) := by
  constructor
  · intro hall
    rw [analyze_fst _ _ _ _ _ hs, hall]
    have hnil : freshRaw agent [] = [] := by
      cases agent with
      | none => simp [freshRaw]
      | some outcome => simp [freshRaw, runAgent]
    rw [hnil]
    simp only [List.map_nil, List.append_nil]
    exact splitCache_all_hits hall
  · intro hnone husers
    have huncached : (splitCache st.cache now msgs).2.1 = msgs := splitCache_no_hits hnone
    have h1 : (analyze (some s) agent now st msgs).1.map MessageDecision.username =
        msgs.map Msg.username := by
      rw [analyze_fst _ _ _ _ _ hs, hnone, huncached]
      simpa [List.map_map, Function.comp] using husers
    refine ⟨h1, ?_⟩
    have := congrArg List.length h1
    simpa using this

/-- Witness for `analyze_order_amended`, case (b): empty cache, two-message
batch, agent answering one well-formed decision per message in order. -/
theorem analyze_order_amended_witness :
    ((freshRaw
        (some (Except.ok (AgentJson.jlist
          [JElem.dict [("username", "u1"), ("decision", "watch"), ("reason", "caps")],
           JElem.dict [("username", "u2"), ("decision", "allow"), ("reason", "ok")]])))
        [{ username := "u1", text := "AAA" }, { username := "u2", text := "hi" }]).map
        RawDecision.username =
      [({ username := "u1", text := "AAA" } : Msg), { username := "u2", text := "hi" }].map
        Msg.username) ∧
    (analyze (some { enabled := true })
        (some (Except.ok (AgentJson.jlist
          [JElem.dict [("username", "u1"), ("decision", "watch"), ("reason", "caps")],
           JElem.dict [("username", "u2"), ("decision", "allow"), ("reason", "ok")]])))
        5
        { cache := fun _ => none, log := [], stats := ⟨0, 0, 0⟩ }
        [{ username := "u1", text := "AAA" }, { username := "u2", text := "hi" }]).1.map
        MessageDecision.username =
      [({ username := "u1", text := "AAA" } : Msg), { username := "u2", text := "hi" }].map
        Msg.username := by
  refine ⟨by decide, ?_⟩
  exact ((analyze_order_amended { enabled := true }
    (some (Except.ok (AgentJson.jlist
      [JElem.dict [("username", "u1"), ("decision", "watch"), ("reason", "caps")],
       JElem.dict [("username", "u2"), ("decision", "allow"), ("reason", "ok")]])))
    5 { cache := fun _ => none, log := [], stats := ⟨0, 0, 0⟩ }
    [{ username := "u1", text := "AAA" }, { username := "u2", text := "hi" }]
    rfl).2 (by decide) (by decide)).1

/-! ## Theorems: C8 (reason strings) -/

/-- C8, counterexample: a fresh decision parsed from an agent element
that omits the `reason` key is returned with the empty reason string
(`_parse_decisions` defaults `reason` to `""`, agent.py 239), so not
every returned decision carries a non-empty reason. -/
theorem analyze_reason_counterexample :
    (analyze (some { enabled := true })
        (some (Except.ok (AgentJson.jlist
          [JElem.dict [("username", "u1"), ("decision", "block")]])))
        0 { cache := fun _ => none, log := [], stats := ⟨0, 0, 0⟩ }
        [{ username := "u1", text := "spam" }]).1 =
      [{ username := "u1", decision := "block", reason := "" }] ∧
    ¬ (∀ d ∈ (analyze (some { enabled := true })
        (some (Except.ok (AgentJson.jlist
          [JElem.dict [("username", "u1"), ("decision", "block")]])))
        0 { cache := fun _ => none, log := [], stats := ⟨0, 0, 0⟩ }
        [{ username := "u1", text := "spam" }]).1, d.reason ≠ "") := by
  refine ⟨by decide, by decide⟩

/-- C8, amended: the disabled, cache-hit, agent-error, agent-not-configured
and parse-failure paths always produce non-empty reasons; a fresh decision
parsed from well-formed agent output copies the agent-supplied reason
verbatim (empty when the agent omits it).  Hence whenever every fresh raw
decision carries a non-empty reason, every returned decision does. -/
theorem analyze_reason_nonempty_amended (settings : Option Settings)
    (agent : Option AgentOutcome) (now : Int) (st : ServerState) (msgs : List Msg)
    (hfr : ∀ r ∈ freshRaw agent (splitCache st.cache now msgs).2.1, r.reason ≠ "") :
    ∀ d ∈ (analyze settings agent now st msgs).1, d.reason ≠ "" := by
  match settings with
  | none =>
      intro d hd
      simp only [analyze] at hd
      obtain ⟨m, _, rfl⟩ := List.mem_map.mp hd
      simp
  | some s =>
      cases hs : s.enabled with
      | false =>
          intro d hd
          simp only [analyze, hs] at hd
          simp at hd
          obtain ⟨m, _, h2⟩ := hd
          subst h2
          simp
      | true =>
          rw [analyze_fst _ _ _ _ _ hs]
          intro d hd
          rcases List.mem_append.mp hd with h1 | h1
          · rw [splitCache_hits_reason d h1]
            simp
          · obtain ⟨r, hr, rfl⟩ := List.mem_map.mp h1
            exact hfr r hr

/-- Witness for `analyze_reason_nonempty_amended`: one cache hit and one
agent-error fallback; both reasons are non-empty. -/
theorem analyze_reason_nonempty_witness :
    ((analyze (some { enabled := true }) (some (Except.error "down")) 10
        { cache := fun v => if v = "u2" then some ("allow", 0) else none,
          log := [], stats := ⟨0, 0, 0⟩ }
        [{ username := "u1", text := "a" }, { username := "u2", text := "b" }]).1.all
      fun d => decide (d.reason ≠ "")) = true := by
  have h := analyze_reason_nonempty_amended (some { enabled := true })
    (some (Except.error "down")) 10
    { cache := fun v => if v = "u2" then some ("allow", 0) else none,
      log := [], stats := ⟨0, 0, 0⟩ }
    [{ username := "u1", text := "a" }, { username := "u2", text := "b" }]
    (by decide)
  rw [List.all_eq_true]
  intro d hd
  simpa using h d hd

/-! ## Theorems: C7 (pattern detector on whitespace input) -/

lemma pyIsSpace_cases {c : Char} (h : pyIsSpace c = true) :
    c = ' ' ∨ c = '\t' ∨ c = '\n' ∨ c = '\r' ∨ c = Char.ofNat 11 ∨ c = Char.ofNat 12 := by
  simp [pyIsSpace] at h
  tauto

lemma ws_char_facts {c : Char} (h : pyIsSpace c = true) :
    c.toLower ≠ 'h' ∧ c.toLower ≠ 'w' ∧ isWordDash c = false ∧
    c.isAlpha = false ∧ isEmojiChar c = false := by
  rcases pyIsSpace_cases h with rfl | rfl | rfl | rfl | rfl | rfl <;> decide

/-- A whitespace character can start no alternative of the URL regex. -/
lemma tryMatchUrl_ws {c : Char} {cs : List Char} (h : pyIsSpace c = true) :
    tryMatchUrl (c :: cs) = none := by
  obtain ⟨h1, h2, h3, -, -⟩ := ws_char_facts h
  have e1 : matchLit ['h', 't', 't', 'p'] (c :: cs) = none := by
    simp [matchLit, h1]
  have e2 : matchLit ['w', 'w', 'w', '.'] (c :: cs) = none := by
    simp [matchLit, h2]
  have e3 : (c :: cs).span isWordDash = ([], c :: cs) := by
    simp [List.span_eq_take_drop, List.takeWhile_cons, List.dropWhile_cons, h3]
  simp only [tryMatchUrl, matchScheme, matchWww, matchDomain, e1, e2, e3]
  simp

lemma urlCountAux_ws {l : List Char} (h : ∀ c ∈ l, pyIsSpace c = true) (fuel : Nat) :
    urlCountAux fuel l = 0 := by
  induction l generalizing fuel with
  | nil => cases fuel <;> simp [urlCountAux]
  | cons c cs ih =>
      cases fuel with
      | zero => simp [urlCountAux]
      | succ n =>
          have hm : tryMatchUrl (c :: cs) = none := tryMatchUrl_ws (h c (by simp))
          simp only [urlCountAux, hm]
          exact ih (fun x hx => h x (by simp [hx])) n

/-- C7, amended: on whitespace-only input (including the empty string)
the detector — a total function, mirroring that `detect_patterns` has no
failure mode — returns false for `has_urls`, `excessive_caps`,
`excessive_emojis`, `too_short` and `too_long`; `repeated_chars`,
however, is true exactly when the input contains a run of three or more
identical non-newline characters (e.g. three spaces), so it is not
always false on whitespace input. -/
theorem detect_patterns_whitespace_amended (s : String)
    (h : ∀ c ∈ s.toList, pyIsSpace c = true) :
    (detectPatterns s).has_urls = false ∧
    (detectPatterns s).excessive_caps = false ∧
    (detectPatterns s).excessive_emojis = false ∧
    (detectPatterns s).too_short = false ∧
    (detectPatterns s).too_long = false := by
  have halpha : s.toList.filter Char.isAlpha = [] :=
    List.filter_eq_nil_iff.mpr fun c hc => by
      simp [(ws_char_facts (h c hc)).2.2.2.1]
  have hemoji : s.toList.filter isEmojiChar = [] :=
    List.filter_eq_nil_iff.mpr fun c hc => by
      simp [(ws_char_facts (h c hc)).2.2.2.2]
  have hurl : urlCount s.toList = 0 := urlCountAux_ws h _
  have hstrip : strippedLen s.toList = 0 := by
    have hd : s.toList.dropWhile pyIsSpace = [] :=
      List.dropWhile_eq_nil_iff.mpr fun c hc => h c hc
    unfold strippedLen pyStrip
    rw [hd]
    rfl
  refine ⟨?_, ?_, ?_, ?_, ?_⟩
  · show decide (urlCount s.toList > 0) = false
    rw [hurl]
    rfl
  · show excessiveCaps s.toList = false
    unfold excessiveCaps
    rw [halpha]
    simp
  · show excessiveEmojis s.toList = false
    unfold excessiveEmojis emojiCount
    rw [hemoji]
    simp
  · show tooShort s.toList = false
    unfold tooShort
    rw [hstrip]
    simp
  · show tooLong s.toList = false
    unfold tooLong
    rw [hstrip]
    rfl

/-- Witness for `detect_patterns_whitespace_amended` at the three-space
string (whose `repeated_chars` flag is nevertheless true, see the
counterexample). -/
theorem detect_patterns_whitespace_witness :
    (∀ c ∈ ("   " : String).toList, pyIsSpace c = true) ∧
    ((detectPatterns "   ").has_urls = false ∧
     (detectPatterns "   ").excessive_caps = false ∧
     (detectPatterns "   ").excessive_emojis = false ∧
     (detectPatterns "   ").too_short = false ∧
     (detectPatterns "   ").too_long = false) :=
  ⟨by decide, detect_patterns_whitespace_amended "   " (by decide)⟩

/-- C7, counterexample: the three-space string is whitespace-only, yet
`repeated_chars` is true — `re.search(r'(.)\1{2,}')` matches a run of
three spaces — so not every boolean flag is false on whitespace-only
input. -/
theorem detect_patterns_whitespace_counterexample :
    (∀ c ∈ ("   " : String).toList, pyIsSpace c = true) ∧
    (detectPatterns "   ").repeated_chars = true := by
  exact ⟨by decide, by decide⟩

/-! ## Theorems: C9 (decision normalization) -/

lemma normalizeDecision_mem (d : String) :
    normalizeDecision d = "block" ∨ normalizeDecision d = "allow" ∨
      normalizeDecision d = "watch" := by
  unfold normalizeDecision
  split
  · next h => exact h
  · simp

/-- C9: for every external model output, `make_decision` returns a
decision in the closed enumeration `{block, allow, watch}`, obtained by
stripping and lower-casing the model's free-text decision and mapping
anything outside the enumeration to `watch`. -/
theorem make_decision_closed_enum
    (maker : String → String → String → String → String → String → DspyDecisionResult)
    (u ma sn pf uh ci : String) :
    ((makeDecision maker u ma sn pf uh ci).decision = "block" ∨
     (makeDecision maker u ma sn pf uh ci).decision = "allow" ∨
     (makeDecision maker u ma sn pf uh ci).decision = "watch") ∧
    (makeDecision maker u ma sn pf uh ci).decision =
      normalizeDecision
        (maker u ma sn pf uh
          (if ci = "" then "No custom instructions provided." else ci)).decision := by
  exact ⟨normalizeDecision_mem _, rfl⟩

/-! ## Theorems: C4 (repeat-offender escalation) -/

/-- C4, counterexample: `make_decision` applies no escalation of its own.
With a user history recording a prior watch decision and an analysis
reporting a repeated violation (severity high, two categories), a model
that answers `watch` makes `make_decision` return `watch`, not `block`:
the repeat-offender rule is only an instruction in the agent's system
prompt, not code. -/
theorem make_decision_escalation_counterexample :
    (makeDecision (fun _ _ _ _ _ _ => ⟨"watch", "model chose watch"⟩)
        "repeat_user"
        "severity: high; categories violated: spam, hate"
        "hostile"
        "has_urls: true; url_count: 3"
        "total_messages: 12; flag_count: 3; prior decision: watch"
        "").decision = "watch" ∧
    (makeDecision (fun _ _ _ _ _ _ => ⟨"watch", "model chose watch"⟩)
        "repeat_user"
        "severity: high; categories violated: spam, hate"
        "hostile"
        "has_urls: true; url_count: 3"
        "total_messages: 12; flag_count: 3; prior decision: watch"
        "").decision ≠ "block" := by
  exact ⟨by decide, by decide⟩

/-- C4, amended: the decision returned by `make_decision` is exactly the
model's normalized output, independent of the user-history argument: in
particular, whenever the model answers `watch` — whatever the prior
audit-log state and current violations passed to it — the result is
`watch`.  Escalation to `block` happens only if the external model
itself answers `block` (as its system prompt instructs it to). -/
theorem make_decision_no_escalation
    (maker : String → String → String → String → String → String → DspyDecisionResult)
    (u ma sn pf uh ci : String)
    (hm : (maker u ma sn pf uh
        (if ci = "" then "No custom instructions provided." else ci)).decision = "watch") :
    (makeDecision maker u ma sn pf uh ci).decision = "watch" := by
  show normalizeDecision
    (maker u ma sn pf uh
      (if ci = "" then "No custom instructions provided." else ci)).decision = "watch"
  rw [hm]
  decide

/-- Witness for `make_decision_no_escalation` at a concrete model that
answers `watch` for a repeat offender. -/
theorem make_decision_no_escalation_witness :
    ((fun _ _ _ _ _ _ => (⟨"watch", "r"⟩ : DspyDecisionResult)) "u1"
        "severity: high" "hostile" "flags" "prior decision: watch"
        (if ("" : String) = "" then "No custom instructions provided." else "")).decision
      = "watch" ∧
    (makeDecision (fun _ _ _ _ _ _ => ⟨"watch", "r"⟩)
        "u1" "severity: high" "hostile" "flags" "prior decision: watch" "").decision
      = "watch" :=
  ⟨by decide,
   make_decision_no_escalation (fun _ _ _ _ _ _ => ⟨"watch", "r"⟩)
     "u1" "severity: high" "hostile" "flags" "prior decision: watch" "" (by decide)⟩

/-! ## Theorems: C10 (user history error handling) -/

/-- C10, counterexample: `sqlite3.connect` is called *outside* the `try`
block (user_history.py line 49), so a SQLite error raised by the connect
itself propagates to the caller instead of yielding a fallback summary. -/
theorem get_user_history_counterexample :
    getUserHistory
        { connectError := some "unable to open database file",
          opError := none, rows := [], now := 1000 } "u1" "hello" =
      Except.error "unable to open database file" ∧
    ¬ ∃ s, getUserHistory
        { connectError := some "unable to open database file",
          opError := none, rows := [], now := 1000 } "u1" "hello" = Except.ok s := by
  refine ⟨rfl, ?_⟩
  rintro ⟨s, hs⟩
  simp [getUserHistory] at hs

/-- C10, amended: once the connection is opened, `get_user_history`
always returns a summary; a `sqlite3.Error` raised inside the `try`
block yields the fallback summary with zero counts, `first_seen` equal
to the current time and the error message in the `error` field, instead
of propagating. -/
theorem get_user_history_amended (db : HistoryDB) (u m : String)
    (h : db.connectError = none) :
    (∃ s, getUserHistory db u m = Except.ok s) ∧
    (∀ e, db.opError = some e →
      getUserHistory db u m =
        Except.ok { username := u, total_messages := 0, recent_messages := 0,
                    flag_count := 0, first_seen := db.now, error := some e }) := by
  constructor
  · unfold getUserHistory
    rw [h]
    cases ho : db.opError with
    | some e => exact ⟨_, rfl⟩
    | none => exact ⟨_, rfl⟩
  · intro e he
    unfold getUserHistory
    rw [h, he]

/-- Witness for `get_user_history_amended`: a connection that opens but
whose first query raises `disk I/O error`. -/
theorem get_user_history_amended_witness :
    (∃ s, getUserHistory
        { connectError := none, opError := some "disk I/O error",
          rows := [], now := 500 } "u1" "hi" = Except.ok s) ∧
    getUserHistory
        { connectError := none, opError := some "disk I/O error",
          rows := [], now := 500 } "u1" "hi" =
      Except.ok { username := "u1", total_messages := 0, recent_messages := 0,
                  flag_count := 0, first_seen := 500, error := some "disk I/O error" } := by
  have h := get_user_history_amended
    { connectError := none, opError := some "disk I/O error", rows := [], now := 500 }
    "u1" "hi" rfl
  exact ⟨h.1, h.2 _ rfl⟩

end ConvoBlocker
